import Mathlib

/-!
# Verification of the pranter command-streaming engine

Shallow embedding of `src/main.rs`: a flow-controlled G-code streamer that
relays commands from a line source to a serial-connected printer, pacing
transmission on acknowledgments and asynchronous control signals.

Modelling choices:
* A text line is a `List Char` (`RawLine`).  Rust's `str::trim` is modelled
  with `Char.isWhitespace`, which agrees with Rust on ASCII input.
* `App.send` records each transmission in a transcript field `sent` instead of
  performing I/O.  Each transmission is tagged (`Tx`) by the call site that
  produced it, so that input-derived (ordinary) commands can be distinguished
  from the fixed pause command "M601" and the fixed resume command "M602".
  On the wire each entry is its text followed by CRLF, mirrored to stderr.
* `stdin().lines()` is the list `input_lines`; the loop in `send_line` that
  pulls lines until a non-empty normalized command appears is `pullCommand`.
* `println!` output (the primary output) is the transcript `stdoutLines`.
* I/O errors (stdin read, serial write, channel recv) abort the session in the
  source; the claims below concern the failure-free path, so the embedding
  models the successful branches of those operations.
-/

/-- A line of text, as its list of characters. -/
abbrev RawLine := List Char

/-- Whitespace predicate used by `str::trim` (agrees with Rust on ASCII). -/
def isWhite (c : Char) : Bool :=
  c.isWhitespace

/-- `str::trim`: remove leading and trailing whitespace. -/
def trimChars (s : RawLine) : RawLine :=
  ((s.dropWhile isWhite).reverse.dropWhile isWhite).reverse

/-- `str::split_once(';')` from `send_line`: split at the first semicolon,
returning the parts before and after it, or `none` if there is none. -/
def splitOnceSemi : RawLine → Option (RawLine × RawLine)
  | [] => none
  | c :: cs =>
      if c = ';' then some ([], cs)
      else (splitOnceSemi cs).map (fun p => (c :: p.1, p.2))

/-- The Command Normalizer (`send_line`, the `trimmed_line` computation):
drop the first `';'` and everything after it, then trim whitespace. -/
def normalizeLine (input_line : RawLine) : RawLine :=
  trimChars (((splitOnceSemi input_line).map Prod.fst).getD input_line)

/-- A transmission to the printer, tagged with the call site of `App::send`
that produced it: the ordinary (input-derived) command of `send_line`'s loop,
the fixed pause command `"M601"`, or the fixed resume command `"M602"`. -/
inductive Tx where
  | ordinary (cmd : RawLine)
  | pauseCmd
  | resumeCmd
deriving DecidableEq

/-- The text of a transmission as written to the wire (before the CRLF). -/
def Tx.text : Tx → RawLine
  | .ordinary cmd => cmd
  | .pauseCmd => "M601".toList
  | .resumeCmd => "M602".toList

/-- Whether a transmission is an ordinary (input-derived) command. -/
def Tx.isOrdinary : Tx → Bool
  | .ordinary _ => true
  | _ => false

/-- The session state of `struct App`, with the I/O handles replaced by
transcripts: `sent` for the printer/stderr side, `stdoutLines` for stdout. -/
structure App where
  input_lines : List RawLine
  running : Bool
  printer_online : Bool
  pending_pause : Bool
  paused : Bool
  sent : List Tx
  stdoutLines : List RawLine
deriving DecidableEq

/-- `App::send`: mirror the line to stderr and write it plus CRLF to the
printer — recorded as one transcript entry. -/
def App.send (a : App) (t : Tx) : App :=
  { a with sent := a.sent ++ [t] }

/-- The loop body of `App::send_line`: pull raw lines, normalizing each and
skipping empties, until a command is obtained (with the remaining input) or
the input is exhausted. -/
def pullCommand : List RawLine → Option (RawLine × List RawLine)
  | [] => none
  | l :: rest =>
      if normalizeLine l = [] then pullCommand rest
      else some (normalizeLine l, rest)

/-- `App::send_line` (the spec's `advance()`): if a pause is pending, send the
fixed pause command and enter the paused state without touching the input;
otherwise send the next normalized input command, or stop `running` when the
input is exhausted. -/
def App.send_line (a : App) : App :=
  if a.pending_pause then
    { a.send Tx.pauseCmd with pending_pause := false, paused := true }
  else
    match pullCommand a.input_lines with
    | none => { a with input_lines := [], running := false }
    | some (cmd, rest) => App.send { a with input_lines := rest } (Tx.ordinary cmd)

/-- `str::contains` for a fixed needle: the needle occurs as a contiguous
substring of the haystack. -/
def containsSub (needle : RawLine) : RawLine → Bool
  | [] => needle.isEmpty
  | c :: rest => needle.isPrefixOf (c :: rest) || containsSub needle rest

/-- `App::handle_printer_rx`: trim the received line, echo it to stdout, then
classify it by the first matching rule of the chain
cancel → pause → resume → start → ok. -/
def App.handle_printer_rx (a : App) (line0 : RawLine) : App :=
  let line := trimChars line0
  let a1 : App := { a with stdoutLines := a.stdoutLines ++ [line] }
  if containsSub "action:cancel".toList line then
    { a1 with stdoutLines := a1.stdoutLines ++ ["USER CANCELLED".toList],
              running := false }
  else if containsSub "action:pause".toList line then
    { a1 with stdoutLines := a1.stdoutLines ++ ["PAUSED".toList],
              pending_pause := true }
  else if containsSub "action:resume".toList line then
    App.send { a1 with stdoutLines := a1.stdoutLines ++ ["RESUMED".toList] }
      Tx.resumeCmd
  else if "start".toList.isPrefixOf line then
    if !a1.printer_online then
      App.send_line { a1 with printer_online := true }
    else a1
  else if "ok".toList.isPrefixOf line && !a1.paused then
    a1.send_line
  else a1

/-- The session state at the top of `App::run`: `App::new` initializes every
flag false and `run` sets `running := true` before its loop. -/
def App.init (input : List RawLine) : App :=
  { input_lines := input
    running := true
    printer_online := false
    pending_pause := false
    paused := false
    sent := []
    stdoutLines := [] }

/-- The run loop of `App::run`, fed a list of received device lines: each
iteration checks `running`, then handles the next `PrinterRx` event. -/
def runEvents : App → List RawLine → App
  | a, [] => a
  | a, e :: es => if a.running then runEvents (a.handle_printer_rx e) es else a

/-- The run loop with its termination outcome: `some a` is the success exit
(`running` became false); `none` is the loop still blocked on `recv` when the
supplied events run out (in the source, a closed channel is a fatal error). -/
def runLoop : App → List RawLine → Option App
  | a, [] => if a.running then none else some a
  | a, e :: es =>
      if a.running then runLoop (a.handle_printer_rx e) es else some a

/-- One step of the session: handling a received device line, or a call to
`send_line` (the spec's `advance()`). -/
inductive Step : App → App → Prop
  | rx (a : App) (line : RawLine) : Step a (a.handle_printer_rx line)
  | adv (a : App) : Step a a.send_line

/-- A transcript with no ordinary (input-derived) command in it. -/
def noOrdinary (ts : List Tx) : Bool :=
  ts.all (fun t => !t.isOrdinary)

/-- The classification rules of the event handler, one per branch. -/
inductive Rule where
  | cancel
  | pause
  | resume
  | start
  | ok
  | other
deriving DecidableEq

/-- Following the spec's tie-break policy: exact literal substring/prefix
matching, case-sensitive, checked in the fixed order
cancel → pause → resume → start → ok; the first match wins. -/
def specFirstMatch (line : RawLine) : Rule :=
  if containsSub "action:cancel".toList line then .cancel
  else if containsSub "action:pause".toList line then .pause
  else if containsSub "action:resume".toList line then .resume
  else if "start".toList.isPrefixOf line then .start
  else if "ok".toList.isPrefixOf line then .ok
  else .other

/-- Following the spec's event-handling rules: the effect of one
classification rule taken in isolation, applied after the received line has
been echoed to the primary output. -/
def specRuleEffect : Rule → App → App
  | .cancel, a =>
      { a with stdoutLines := a.stdoutLines ++ ["USER CANCELLED".toList],
               running := false }
  | .pause, a =>
      { a with stdoutLines := a.stdoutLines ++ ["PAUSED".toList],
               pending_pause := true }
  | .resume, a =>
      App.send { a with stdoutLines := a.stdoutLines ++ ["RESUMED".toList] }
        Tx.resumeCmd
  | .start, a =>
      if !a.printer_online then App.send_line { a with printer_online := true }
      else a
  | .ok, a => if !a.paused then a.send_line else a
  | .other, a => a

/-! ## Normalizer lemmas -/

/-- The before-part of `split_once(';')` (or the whole line when there is no
semicolon) is the longest semicolon-free prefix. -/
theorem splitFst_eq (s : RawLine) :
    ((splitOnceSemi s).map Prod.fst).getD s = s.takeWhile (fun c => c != ';') := by
  induction s with
  | nil => rfl
  | cons c cs ih =>
    by_cases hc : c = ';'
    · subst hc
      simp [splitOnceSemi, List.takeWhile_cons]
    · cases hsp : splitOnceSemi cs with
      | none =>
        have hcs : cs.takeWhile (fun c => c != ';') = cs := by
          rw [← ih]; simp [hsp]
        simp [splitOnceSemi, hc, hsp, List.takeWhile_cons, hcs]
      | some p =>
        have hfst : p.1 = cs.takeWhile (fun c => c != ';') := by
          rw [← ih]; simp [hsp]
        simp [splitOnceSemi, hc, hsp, List.takeWhile_cons, hfst]

/-- The Normalizer equals: trim the longest semicolon-free prefix. -/
theorem normalizeLine_eq (s : RawLine) :
    normalizeLine s = trimChars (s.takeWhile (fun c => c != ';')) := by
  unfold normalizeLine
  rw [splitFst_eq]

/-- C3: for every raw input line containing the comment delimiter `';'`, the
Normalizer's output is the whitespace-trimmed prefix of the line before the
first `';'`, independent of further delimiters or of what follows. -/
theorem normalizer_first_delimiter (l : RawLine) (h : ';' ∈ l) :
    normalizeLine l = trimChars (l.takeWhile (fun c => c != ';')) :=
  normalizeLine_eq l

theorem normalizer_first_delimiter_witness :
    ';' ∈ "G1 X10 ; move ; x;y".toList ∧
    normalizeLine "G1 X10 ; move ; x;y".toList
      = trimChars (("G1 X10 ; move ; x;y".toList).takeWhile (fun c => c != ';')) :=
  ⟨by decide, normalizer_first_delimiter _ (by decide)⟩

/-- C4: a raw line whose trimmed pre-delimiter prefix is empty produces no
command, and `send_line` transmits nothing for it, continuing with the rest
of the input instead. -/
theorem normalizer_empty_skip (l : RawLine) (a : App) (rest : List RawLine)
    (hempty : trimChars (l.takeWhile (fun c => c != ';')) = [])
    (hpend : a.pending_pause = false)
    (hin : a.input_lines = l :: rest) :
    normalizeLine l = [] ∧
    a.send_line = App.send_line { a with input_lines := rest } := by
  have hn : normalizeLine l = [] := by rw [normalizeLine_eq]; exact hempty
  refine ⟨hn, ?_⟩
  obtain ⟨il, r, po, pp, ps, sn, so⟩ := a
  have hpp : pp = false := hpend
  have hil : il = l :: rest := hin
  subst hpp hil
  have hpull : pullCommand (l :: rest) = pullCommand rest := by
    simp [pullCommand, hn]
  simp only [App.send_line, hpull]
  cases hpc : pullCommand rest with
  | none => simp
  | some p => simp [App.send]

theorem normalizer_empty_skip_witness :
    trimChars (("  ; homing comment".toList).takeWhile (fun c => c != ';')) = [] ∧
    (App.init ["  ; homing comment".toList, "G28".toList]).pending_pause = false ∧
    (App.init ["  ; homing comment".toList, "G28".toList]).input_lines
      = "  ; homing comment".toList :: ["G28".toList] ∧
    (normalizeLine "  ; homing comment".toList = [] ∧
      (App.init ["  ; homing comment".toList, "G28".toList]).send_line
        = App.send_line { App.init ["  ; homing comment".toList, "G28".toList] with
            input_lines := ["G28".toList] }) :=
  ⟨by decide, rfl, rfl, normalizer_empty_skip _ _ _ (by decide) rfl rfl⟩

/-- C5: calling `send_line` (the spec's `advance()`) with `pending_pause` set
transmits exactly the fixed pause command "M601", clears `pending_pause`,
sets `paused`, and changes nothing else — in particular it consumes no input
line. -/
theorem advance_pending_pause (a : App) (h : a.pending_pause = true) :
    a.send_line = { a with sent := a.sent ++ [Tx.pauseCmd],
                           pending_pause := false, paused := true } := by
  simp [App.send_line, App.send, h]

theorem advance_pending_pause_witness :
    ({ App.init ["G1".toList] with pending_pause := true } : App).pending_pause = true ∧
    ({ App.init ["G1".toList] with pending_pause := true } : App).send_line
      = { ({ App.init ["G1".toList] with pending_pause := true } : App) with
          sent := ({ App.init ["G1".toList] with pending_pause := true } : App).sent
            ++ [Tx.pauseCmd],
          pending_pause := false, paused := true } :=
  ⟨rfl, advance_pending_pause _ rfl⟩

/-- C9: `send_line` with no pending pause and an exhausted input source sets
`running := false` and transmits nothing, and the run loop then exits with
the success outcome at its next check. -/
theorem advance_exhausted (a : App) (es : List RawLine)
    (hpend : a.pending_pause = false) (hin : a.input_lines = []) :
    a.send_line = { a with running := false } ∧
    runLoop a.send_line es = some a.send_line := by
  obtain ⟨il, r, po, pp, ps, sn, so⟩ := a
  have hpp : pp = false := hpend
  have hil : il = [] := hin
  subst hpp hil
  constructor
  · simp [App.send_line, pullCommand]
  · cases es <;> simp [runLoop, App.send_line, pullCommand]

theorem advance_exhausted_witness :
    (App.init []).pending_pause = false ∧
    (App.init []).input_lines = [] ∧
    ((App.init []).send_line = { App.init [] with running := false } ∧
      runLoop (App.init []).send_line ["ok".toList] = some (App.init []).send_line) :=
  ⟨rfl, rfl, advance_exhausted _ _ rfl rfl⟩

/-! ## Flag lemmas for the pause state machine -/

/-- `send_line` always leaves `pending_pause` cleared. -/
theorem send_line_pending_pause (a : App) : a.send_line.pending_pause = false := by
  by_cases h : a.pending_pause = true
  · simp [App.send_line, h]
  · rw [Bool.not_eq_true] at h
    cases hpc : pullCommand a.input_lines <;>
      simp [App.send_line, h, hpc, App.send]

/-- After `send_line`, the session is paused iff a pause was pending or it was
already paused. -/
theorem send_line_paused (a : App) :
    a.send_line.paused = (a.pending_pause || a.paused) := by
  by_cases h : a.pending_pause = true
  · simp [App.send_line, h]
  · rw [Bool.not_eq_true] at h
    cases hpc : pullCommand a.input_lines <;>
      simp [App.send_line, h, hpc, App.send]

/-- Every trace of the run loop is reachable by `Step`s. -/
theorem reachable_runEvents (a : App) (es : List RawLine) :
    Relation.ReflTransGen Step a (runEvents a es) := by
  induction es generalizing a with
  | nil => exact Relation.ReflTransGen.refl
  | cons e es ih =>
    by_cases h : a.running = true
    · rw [runEvents, if_pos h]
      exact Relation.ReflTransGen.head (Step.rx a e) (ih _)
    · rw [Bool.not_eq_true] at h
      rw [runEvents, h]
      exact Relation.ReflTransGen.refl

/-- Each event-handling branch either leaves `paused` unchanged, or reaches
`send_line`, after which `paused` holds iff a pause was pending or already in
force, with `pending_pause` cleared. -/
theorem handle_paused_cases (a : App) (l : RawLine) :
    (a.handle_printer_rx l).paused = a.paused ∨
    ((a.handle_printer_rx l).paused = (a.pending_pause || a.paused) ∧
      (a.handle_printer_rx l).pending_pause = false) := by
  simp only [App.handle_printer_rx]
  split_ifs <;>
    simp [App.send, send_line_paused, send_line_pending_pause]

/-- C2 (amended): across any single step — a received device line or an
`advance()` call — `paused` can become true only by consuming a set
`pending_pause`, which is cleared in the same step. -/
theorem paused_only_from_pending (a b : App) (hstep : Step a b)
    (ha : a.paused = false) (hb : b.paused = true) :
    a.pending_pause = true ∧ b.pending_pause = false := by
  cases hstep with
  | adv =>
    rw [send_line_paused, ha, Bool.or_false] at hb
    exact ⟨hb, send_line_pending_pause a⟩
  | rx line =>
    rcases handle_paused_cases a line with hcase | ⟨hp1, hp2⟩
    · rw [hcase, ha] at hb
      exact absurd hb (by simp)
    · rw [hp1, ha, Bool.or_false] at hb
      exact ⟨hb, hp2⟩

theorem paused_only_from_pending_witness :
    ({ App.init [] with pending_pause := true } : App).paused = false ∧
    ({ App.init [] with pending_pause := true } : App).send_line.paused = true ∧
    (({ App.init [] with pending_pause := true } : App).pending_pause = true ∧
      ({ App.init [] with pending_pause := true } : App).send_line.pending_pause
        = false) :=
  ⟨rfl, by decide,
    paused_only_from_pending _ _ (Step.adv _) rfl (by decide)⟩

/-- C2 (counterexample): a pause request received while already paused makes
`pending_pause` and `paused` both true in a reachable state, and they stay
both true — the claimed invariant fails. -/
theorem pending_and_paused_both_true :
    Relation.ReflTransGen Step (App.init ["G1".toList])
      (runEvents (App.init ["G1".toList])
        ["action:pause".toList, "ok".toList, "action:pause".toList]) ∧
    (runEvents (App.init ["G1".toList])
      ["action:pause".toList, "ok".toList, "action:pause".toList]).pending_pause
      = true ∧
    (runEvents (App.init ["G1".toList])
      ["action:pause".toList, "ok".toList, "action:pause".toList]).paused = true :=
  ⟨reachable_runEvents _ _, by decide, by decide⟩

/-! ## The handshake gate (C1) -/

/-- Handling a device line whose trimmed form starts with neither "start" nor
"ok" adds no ordinary command to the transcript. -/
theorem handle_printer_rx_no_ordinary (a : App) (e : RawLine)
    (hstart : "start".toList.isPrefixOf (trimChars e) = false)
    (hok : "ok".toList.isPrefixOf (trimChars e) = false)
    (hsent : noOrdinary a.sent = true) :
    noOrdinary (a.handle_printer_rx e).sent = true := by
  simp only [App.handle_printer_rx]
  split_ifs <;>
    simp_all [App.send, noOrdinary, Tx.isOrdinary, List.all_append]

/-- No ordinary command is ever added by a run whose events all avoid the
"start" and "ok" prefixes. -/
theorem runEvents_no_ordinary (es : List RawLine) (a : App)
    (hev : ∀ e ∈ es, "start".toList.isPrefixOf (trimChars e) = false ∧
                     "ok".toList.isPrefixOf (trimChars e) = false)
    (hsent : noOrdinary a.sent = true) :
    noOrdinary (runEvents a es).sent = true := by
  induction es generalizing a with
  | nil => exact hsent
  | cons e es ih =>
    by_cases h : a.running = true
    · rw [runEvents, if_pos h]
      refine ih _ (fun e' he' => hev e' (List.mem_cons_of_mem _ he')) ?_
      exact handle_printer_rx_no_ordinary a e (hev e (List.mem_cons_self _ _)).1
        (hev e (List.mem_cons_self _ _)).2 hsent
    · rw [Bool.not_eq_true] at h
      rw [runEvents, h]
      exact hsent

/-- C1 (amended): no ordinary (input-derived) command is transmitted before a
line starting with "start" or with "ok" has been observed — but an "ok" alone
does trigger transmission, so the handshake token by itself is not the gate
(see `ordinary_sent_before_start`). -/
theorem no_ordinary_before_start_or_ok (input events : List RawLine)
    (hev : ∀ e ∈ events, "start".toList.isPrefixOf (trimChars e) = false ∧
                         "ok".toList.isPrefixOf (trimChars e) = false) :
    noOrdinary (runEvents (App.init input) events).sent = true :=
  runEvents_no_ordinary events (App.init input) hev rfl

theorem no_ordinary_before_start_or_ok_witness :
    (∀ e ∈ [("hello printer").toList, ("action:resume").toList],
      "start".toList.isPrefixOf (trimChars e) = false ∧
      "ok".toList.isPrefixOf (trimChars e) = false) ∧
    noOrdinary (runEvents (App.init ["G1 X10".toList])
      [("hello printer").toList, ("action:resume").toList]).sent = true :=
  ⟨by decide, no_ordinary_before_start_or_ok _ _ (by decide)⟩

/-- C1 (counterexample): an acknowledgment line received while
`printer_online` is still false — before any "start" has been observed —
does cause an ordinary command to be sent. -/
theorem ordinary_sent_before_start :
    "start".toList.isPrefixOf (trimChars "ok".toList) = false ∧
    (runEvents (App.init ["G1 X10".toList]) ["ok".toList]).sent
      = [Tx.ordinary "G1 X10".toList] ∧
    (runEvents (App.init ["G1 X10".toList]) ["ok".toList]).printer_online
      = false := by
  refine ⟨by decide, by decide, by decide⟩

/-! ## Classification order (C8) -/

/-- C8: the event handler is exactly the spec's ordered first-match
classifier applied to the trimmed line after echoing it: matching is literal
and case-sensitive, checked in the order cancel → pause → resume → start →
ok, only the first matching rule fires, and a line matching an earlier
marker produces none of the effects of any later rule. -/
theorem classification_first_match (a : App) (l : RawLine) :
    a.handle_printer_rx l
      = specRuleEffect (specFirstMatch (trimChars l))
          { a with stdoutLines := a.stdoutLines ++ [trimChars l] } := by
  simp only [App.handle_printer_rx, specFirstMatch]
  split_ifs <;> simp_all [specRuleEffect]

/-! ## Behavior while paused (C6) -/

/-- A line starting with "ok" cannot start with "start". -/
theorem not_start_of_ok (s : RawLine)
    (h : "ok".toList.isPrefixOf s = true) :
    "start".toList.isPrefixOf s = false := by
  rw [show "ok".toList = ['o', 'k'] from rfl] at h
  rw [show "start".toList = ['s', 't', 'a', 'r', 't'] from rfl]
  cases s with
  | nil => simp [List.isPrefixOf] at h
  | cons c t =>
    simp [List.isPrefixOf] at h ⊢
    rcases h with ⟨hc, -⟩
    intro hs
    rw [← hc] at hs
    exact absurd hs (by decide)

/-- C6 (amended): while `paused` is true, a device line starting with "ok"
and containing none of the action markers transmits nothing and changes no
session-state field; it is only echoed to the primary output. -/
theorem paused_ok_no_effect (a : App) (l : RawLine)
    (hpaused : a.paused = true)
    (hok : "ok".toList.isPrefixOf (trimChars l) = true)
    (hc : containsSub "action:cancel".toList (trimChars l) = false)
    (hp : containsSub "action:pause".toList (trimChars l) = false)
    (hr : containsSub "action:resume".toList (trimChars l) = false) :
    a.handle_printer_rx l
      = { a with stdoutLines := a.stdoutLines ++ [trimChars l] } := by
  have hs := not_start_of_ok _ hok
  simp only [App.handle_printer_rx]
  rw [hc, hp, hr, hs, hok, hpaused]
  simp

theorem paused_ok_no_effect_witness :
    ({ App.init ["G1".toList] with paused := true } : App).paused = true ∧
    "ok".toList.isPrefixOf (trimChars "ok T:200".toList) = true ∧
    containsSub "action:cancel".toList (trimChars "ok T:200".toList) = false ∧
    containsSub "action:pause".toList (trimChars "ok T:200".toList) = false ∧
    containsSub "action:resume".toList (trimChars "ok T:200".toList) = false ∧
    ({ App.init ["G1".toList] with paused := true } : App).handle_printer_rx
        "ok T:200".toList
      = { ({ App.init ["G1".toList] with paused := true } : App) with
          stdoutLines :=
            ({ App.init ["G1".toList] with paused := true } : App).stdoutLines
              ++ [trimChars "ok T:200".toList] } :=
  ⟨rfl, by decide, by decide, by decide, by decide,
    paused_ok_no_effect _ _ rfl (by decide) (by decide) (by decide) (by decide)⟩

/-- C6 (counterexample): in a reachable paused state, a device line starting
with "ok" that also carries the resume marker does transmit a command — the
claim fails for such acknowledgment lines. -/
theorem paused_ok_line_can_transmit :
    Relation.ReflTransGen Step (App.init ["G1".toList])
      (runEvents (App.init ["G1".toList])
        ["action:pause".toList, "ok".toList]) ∧
    (runEvents (App.init ["G1".toList])
      ["action:pause".toList, "ok".toList]).paused = true ∧
    "ok".toList.isPrefixOf (trimChars "ok action:resume".toList) = true ∧
    ((runEvents (App.init ["G1".toList])
        ["action:pause".toList, "ok".toList]).handle_printer_rx
        "ok action:resume".toList).sent
      = (runEvents (App.init ["G1".toList])
          ["action:pause".toList, "ok".toList]).sent ++ [Tx.resumeCmd] :=
  ⟨reachable_runEvents _ _, by decide, by decide, by decide⟩

/-! ## The resume branch (C7, C10) -/

/-- The resume branch of the event handler: when the trimmed line carries the
resume marker and neither earlier marker, the handler echoes the line, writes
"RESUMED", and transmits the fixed resume command, changing nothing else. -/
theorem handle_printer_rx_resume (a : App) (l : RawLine)
    (hc : containsSub "action:cancel".toList (trimChars l) = false)
    (hp : containsSub "action:pause".toList (trimChars l) = false)
    (hr : containsSub "action:resume".toList (trimChars l) = true) :
    a.handle_printer_rx l
      = { a with
          stdoutLines := a.stdoutLines ++ [trimChars l, "RESUMED".toList],
          sent := a.sent ++ [Tx.resumeCmd] } := by
  simp only [App.handle_printer_rx]
  rw [hc, hp, hr]
  simp [App.send]

/-- C7 (amended): on a device line carrying the resume marker and neither of
the higher-priority cancel/pause markers, the controller writes "RESUMED" to
the primary output and immediately transmits the fixed resume command "M602",
leaving `paused`, `running`, `printer_online`, `pending_pause` and the input
unchanged. -/
theorem resume_marker_effects (a : App) (l : RawLine)
    (hc : containsSub "action:cancel".toList (trimChars l) = false)
    (hp : containsSub "action:pause".toList (trimChars l) = false)
    (hr : containsSub "action:resume".toList (trimChars l) = true) :
    a.handle_printer_rx l
      = { a with
          stdoutLines := a.stdoutLines ++ [trimChars l, "RESUMED".toList],
          sent := a.sent ++ [Tx.resumeCmd] } :=
  handle_printer_rx_resume a l hc hp hr

theorem resume_marker_effects_witness :
    containsSub "action:cancel".toList
      (trimChars "// action:resume".toList) = false ∧
    containsSub "action:pause".toList
      (trimChars "// action:resume".toList) = false ∧
    containsSub "action:resume".toList
      (trimChars "// action:resume".toList) = true ∧
    ({ App.init ["G1".toList] with paused := true } : App).handle_printer_rx
        "// action:resume".toList
      = { ({ App.init ["G1".toList] with paused := true } : App) with
          stdoutLines :=
            ({ App.init ["G1".toList] with paused := true } : App).stdoutLines
              ++ [trimChars "// action:resume".toList, "RESUMED".toList],
          sent := ({ App.init ["G1".toList] with paused := true } : App).sent
            ++ [Tx.resumeCmd] } :=
  ⟨by decide, by decide, by decide,
    resume_marker_effects _ _ (by decide) (by decide) (by decide)⟩

/-- C7 (counterexample): a device line containing both the pause and the
resume markers takes the pause branch — "PAUSED" is written instead of
"RESUMED", no resume command is transmitted, and `pending_pause` changes. -/
theorem resume_marker_shadowed_by_pause :
    containsSub "action:resume".toList
      (trimChars "action:pause action:resume".toList) = true ∧
    ((App.init []).handle_printer_rx
      "action:pause action:resume".toList).sent = [] ∧
    ((App.init []).handle_printer_rx
      "action:pause action:resume".toList).pending_pause = true ∧
    ((App.init []).handle_printer_rx
      "action:pause action:resume".toList).stdoutLines
      = ["action:pause action:resume".toList, "PAUSED".toList] :=
  ⟨by decide, by decide, by decide, by decide⟩

/-- C10 (amended): on a device line carrying the resume marker and neither
higher-priority marker, the fixed resume command is transmitted regardless of
the session state — even when `paused` is false, when `pending_pause` is set,
or when the handshake has not been observed (`printer_online` false). -/
theorem resume_cmd_unconditional (a : App) (l : RawLine)
    (hc : containsSub "action:cancel".toList (trimChars l) = false)
    (hp : containsSub "action:pause".toList (trimChars l) = false)
    (hr : containsSub "action:resume".toList (trimChars l) = true) :
    (a.handle_printer_rx l).sent = a.sent ++ [Tx.resumeCmd] := by
  rw [handle_printer_rx_resume a l hc hp hr]

theorem resume_cmd_unconditional_witness :
    containsSub "action:cancel".toList
      (trimChars "  action:resume  ".toList) = false ∧
    containsSub "action:pause".toList
      (trimChars "  action:resume  ".toList) = false ∧
    containsSub "action:resume".toList
      (trimChars "  action:resume  ".toList) = true ∧
    ({ App.init [] with pending_pause := true } : App).paused = false ∧
    ({ App.init [] with pending_pause := true } : App).pending_pause = true ∧
    ({ App.init [] with pending_pause := true } : App).printer_online = false ∧
    (({ App.init [] with pending_pause := true } : App).handle_printer_rx
        "  action:resume  ".toList).sent
      = ({ App.init [] with pending_pause := true } : App).sent
        ++ [Tx.resumeCmd] :=
  ⟨by decide, by decide, by decide, rfl, rfl, rfl,
    resume_cmd_unconditional _ _ (by decide) (by decide) (by decide)⟩

/-- C10 (counterexample): a device line containing both the cancel and the
resume markers takes the cancel branch — no resume command is transmitted. -/
theorem resume_marker_shadowed_by_cancel :
    containsSub "action:resume".toList
      (trimChars "action:cancel action:resume".toList) = true ∧
    ((App.init []).handle_printer_rx
      "action:cancel action:resume".toList).sent = [] ∧
    ((App.init []).handle_printer_rx
      "action:cancel action:resume".toList).running = false :=
  ⟨by decide, by decide, by decide⟩
